import Mathlib

/-!
# FakeRunState (atc/exec/execfakes/fake_run_state.go)

A shallow embedding of the counterfeiter-generated test double `FakeRunState`
and a verification of its call-recording and return-value behaviour.

Modelling conventions

* `atc.PlanID` is a Go string type; it is `String` here.
* `interface{}` values are the inductive `Value`: the dynamic values the fake
  is handed (a boxed plan ID, scalars, and pointers to output slots).
* A pointer points into `Mem`, the memory outside the fake.  The fake itself
  never dereferences a pointer; only stubs installed by a test can touch
  `Mem`, so a stub is a function that reads and rewrites `Mem`.  A stub is
  taken not to call back into the fake it is installed on; a statement whose
  conclusion a re-entrant stub could change assumes that no stub is installed.
* The exported fields `ArtifactsStub`, `ResultStub` and `StoreResultStub` are
  written through `ArtifactsCalls`, `ResultCalls` and `StoreResultCalls`; a
  test assigning a field directly is the same call.
* `*artifact.Repository` is an optional address (`none` is the nil pointer);
  two repositories are the same instance iff the addresses are equal.
* A Go map is an association list wrapped in `Option` (`none` is the nil
  map); a Go slice is a `List` (a nil slice read out of a map is the absent
  key).
* The mutexes only serialise callers; every method body is embedded as one
  sequential state transformer.
-/

namespace ExecFakes

/-- The Go type `atc.PlanID`, a string. -/
abbrev PlanID := String

/-- Dynamic values passed where the source has `interface{}`. -/
inductive Value where
  | nil
  | bool (b : Bool)
  | int (n : Int)
  | str (s : String)
  | planID (id : PlanID)
  | ptr (addr : Nat)
deriving DecidableEq, Repr

/-- Memory outside the fake: the slots that pointers refer to. -/
abbrev Mem := Nat → Value

/-- The Go type `*artifact.Repository`; `none` is nil. -/
abbrev RepoPtr := Option Nat

/-- Entries of a non-nil Go map. -/
abbrev Entries (K V : Type) := List (K × V)

/-- A Go map value; `none` is the nil map. -/
abbrev GoMap (K V : Type) := Option (Entries K V)

/-- Read `m[k]` on the entries of a map, in comma-ok form. -/
def lookup {K V : Type} [DecidableEq K] : Entries K V → K → Option V
  | [], _ => none
  | (k1, v1) :: rest, k => if k1 = k then some v1 else lookup rest k

/-- The assignment `m[k] = v` on the entries of a non-nil map. -/
def assign {K V : Type} [DecidableEq K] : Entries K V → K → V → Entries K V
  | [], k, v => [(k, v)]
  | (k1, v1) :: rest, k, v =>
      if k1 = k then (k, v) :: rest else (k1, v1) :: assign rest k v

/-- Read `m[k]` on a possibly nil map: a nil map reads as empty. -/
def GoMap.index {K V : Type} [DecidableEq K] (m : GoMap K V) (k : K) : Option V :=
  match m with
  | none => none
  | some es => lookup es k

/-- The entries of a possibly nil map: what `range` iterates over, and what
the map holds after `if m == nil { m = make(...) }`. -/
def GoMap.entries {K V : Type} (m : GoMap K V) : Entries K V :=
  match m with
  | none => []
  | some es => es

/-- Go slice indexing `xs[i]` with a signed index; `none` is the
index-out-of-range run-time failure. -/
def goIndex {α : Type} (xs : List α) (i : Int) : Option α :=
  if 0 ≤ i then xs[i.toNat]? else none

/-- The struct `FakeRunState` (the four mutexes carry no data). -/
structure FakeRunState where
  ArtifactsStub : Option (Mem → RepoPtr × Mem)
  artifactsArgsForCall : List Unit
  artifactsReturns : RepoPtr
  artifactsReturnsOnCall : GoMap Int RepoPtr
  ResultStub : Option (PlanID → Value → Mem → Bool × Mem)
  resultArgsForCall : List (PlanID × Value)
  resultReturns : Bool
  resultReturnsOnCall : GoMap Int Bool
  StoreResultStub : Option (PlanID → Value → Mem → Mem)
  storeResultArgsForCall : List (PlanID × Value)
  invocations : GoMap String (List (List Value))

/-- The zero value `new(FakeRunState)`. -/
def FakeRunState.empty : FakeRunState where
  ArtifactsStub := none
  artifactsArgsForCall := []
  artifactsReturns := none
  artifactsReturnsOnCall := none
  ResultStub := none
  resultArgsForCall := []
  resultReturns := false
  resultReturnsOnCall := none
  StoreResultStub := none
  storeResultArgsForCall := []
  invocations := none

namespace FakeRunState

/-- Source: `recordInvocation` (lines 206-216). -/
def recordInvocation (fake : FakeRunState) (key : String) (args : List Value) :
    FakeRunState :=
  let inv : Entries String (List (List Value)) := fake.invocations.entries
  let inv := if (lookup inv key).isNone then assign inv key [] else inv
  let inv := assign inv key ((lookup inv key).getD [] ++ [args])
  { fake with invocations := some inv }

/-- Source: `Invocations` (lines 190-204): copy every entry into a fresh map. -/
def Invocations (fake : FakeRunState) : Entries String (List (List Value)) :=
  fake.invocations.entries.foldl (fun copiedInvocations kv => assign copiedInvocations kv.1 kv.2) []

/-- Source: `Artifacts` (lines 45-60). -/
def Artifacts (fake : FakeRunState) (mem : Mem) : RepoPtr × FakeRunState × Mem :=
  let specific := fake.artifactsReturnsOnCall.index (fake.artifactsArgsForCall.length : Int)
  let fake := { fake with artifactsArgsForCall := fake.artifactsArgsForCall ++ [()] }
  let fake := fake.recordInvocation "Artifacts" []
  match fake.ArtifactsStub with
  | some stub => ((stub mem).1, fake, (stub mem).2)
  | none =>
    match specific with
    | some ret => (ret, fake, mem)
    | none => (fake.artifactsReturns, fake, mem)

/-- Source: `ArtifactsCallCount` (lines 62-66). -/
def ArtifactsCallCount (fake : FakeRunState) : Nat :=
  fake.artifactsArgsForCall.length

/-- Source: `ArtifactsCalls` (lines 68-72). -/
def ArtifactsCalls (fake : FakeRunState) (stub : Option (Mem → RepoPtr × Mem)) :
    FakeRunState :=
  { fake with ArtifactsStub := stub }

/-- Source: `ArtifactsReturns` (lines 74-81). -/
def ArtifactsReturns (fake : FakeRunState) (result1 : RepoPtr) : FakeRunState :=
  { fake with ArtifactsStub := none, artifactsReturns := result1 }

/-- Source: `ArtifactsReturnsOnCall` (lines 83-95). -/
def ArtifactsReturnsOnCall (fake : FakeRunState) (i : Int) (result1 : RepoPtr) :
    FakeRunState :=
  let fake := { fake with ArtifactsStub := none }
  let m : Entries Int RepoPtr := fake.artifactsReturnsOnCall.entries
  { fake with artifactsReturnsOnCall := some (assign m i result1) }

/-- Source: `Result` (lines 97-114). -/
def Result (fake : FakeRunState) (arg1 : PlanID) (arg2 : Value) (mem : Mem) :
    Bool × FakeRunState × Mem :=
  let specific := fake.resultReturnsOnCall.index (fake.resultArgsForCall.length : Int)
  let fake := { fake with resultArgsForCall := fake.resultArgsForCall ++ [(arg1, arg2)] }
  let fake := fake.recordInvocation "Result" [Value.planID arg1, arg2]
  match fake.ResultStub with
  | some stub => ((stub arg1 arg2 mem).1, fake, (stub arg1 arg2 mem).2)
  | none =>
    match specific with
    | some ret => (ret, fake, mem)
    | none => (fake.resultReturns, fake, mem)

/-- Source: `ResultCallCount` (lines 116-120). -/
def ResultCallCount (fake : FakeRunState) : Nat :=
  fake.resultArgsForCall.length

/-- Source: `ResultCalls` (lines 122-126). -/
def ResultCalls (fake : FakeRunState)
    (stub : Option (PlanID → Value → Mem → Bool × Mem)) : FakeRunState :=
  { fake with ResultStub := stub }

/-- Source: `ResultArgsForCall` (lines 128-133). -/
def ResultArgsForCall (fake : FakeRunState) (i : Int) : Option (PlanID × Value) :=
  goIndex fake.resultArgsForCall i

/-- Source: `ResultReturns` (lines 135-142). -/
def ResultReturns (fake : FakeRunState) (result1 : Bool) : FakeRunState :=
  { fake with ResultStub := none, resultReturns := result1 }

/-- Source: `ResultReturnsOnCall` (lines 144-156). -/
def ResultReturnsOnCall (fake : FakeRunState) (i : Int) (result1 : Bool) :
    FakeRunState :=
  let fake := { fake with ResultStub := none }
  let m : Entries Int Bool := fake.resultReturnsOnCall.entries
  { fake with resultReturnsOnCall := some (assign m i result1) }

/-- Source: `StoreResult` (lines 158-169). -/
def StoreResult (fake : FakeRunState) (arg1 : PlanID) (arg2 : Value) (mem : Mem) :
    FakeRunState × Mem :=
  let fake := { fake with
    storeResultArgsForCall := fake.storeResultArgsForCall ++ [(arg1, arg2)] }
  let fake := fake.recordInvocation "StoreResult" [Value.planID arg1, arg2]
  match fake.StoreResultStub with
  | some stub => (fake, stub arg1 arg2 mem)
  | none => (fake, mem)

/-- Source: `StoreResultCallCount` (lines 171-175). -/
def StoreResultCallCount (fake : FakeRunState) : Nat :=
  fake.storeResultArgsForCall.length

/-- Source: `StoreResultCalls` (lines 177-181). -/
def StoreResultCalls (fake : FakeRunState)
    (stub : Option (PlanID → Value → Mem → Mem)) : FakeRunState :=
  { fake with StoreResultStub := stub }

/-- Source: `StoreResultArgsForCall` (lines 183-188). -/
def StoreResultArgsForCall (fake : FakeRunState) (i : Int) : Option (PlanID × Value) :=
  goIndex fake.storeResultArgsForCall i

end FakeRunState

/-- One call of a public method of the fake, with its arguments. -/
inductive Op where
  | artifacts
  | artifactsCallCount
  | artifactsCalls (stub : Option (Mem → RepoPtr × Mem))
  | artifactsReturns (result1 : RepoPtr)
  | artifactsReturnsOnCall (i : Int) (result1 : RepoPtr)
  | result (arg1 : PlanID) (arg2 : Value)
  | resultCallCount
  | resultCalls (stub : Option (PlanID → Value → Mem → Bool × Mem))
  | resultArgsForCall (i : Int)
  | resultReturns (result1 : Bool)
  | resultReturnsOnCall (i : Int) (result1 : Bool)
  | storeResult (arg1 : PlanID) (arg2 : Value)
  | storeResultCallCount
  | storeResultCalls (stub : Option (PlanID → Value → Mem → Mem))
  | storeResultArgsForCall (i : Int)
  | invocations

/-- The fake together with the memory outside it. -/
abbrev World := FakeRunState × Mem

/-- The effect of one method call on the fake and on memory.  The accessors
(call counts, recorded arguments, `Invocations`) only read; an accessor
that fails with index out of range has released its read lock and changed
nothing. -/
def step (w : World) : Op → World
  | .artifacts => (w.1.Artifacts w.2).2
  | .artifactsCallCount => w
  | .artifactsCalls stub => (w.1.ArtifactsCalls stub, w.2)
  | .artifactsReturns r => (w.1.ArtifactsReturns r, w.2)
  | .artifactsReturnsOnCall i r => (w.1.ArtifactsReturnsOnCall i r, w.2)
  | .result arg1 arg2 => (w.1.Result arg1 arg2 w.2).2
  | .resultCallCount => w
  | .resultCalls stub => (w.1.ResultCalls stub, w.2)
  | .resultArgsForCall _ => w
  | .resultReturns b => (w.1.ResultReturns b, w.2)
  | .resultReturnsOnCall i b => (w.1.ResultReturnsOnCall i b, w.2)
  | .storeResult arg1 arg2 => w.1.StoreResult arg1 arg2 w.2
  | .storeResultCallCount => w
  | .storeResultCalls stub => (w.1.StoreResultCalls stub, w.2)
  | .storeResultArgsForCall _ => w
  | .invocations => w

/-- Run a sequence of method calls, first call first. -/
def run (w : World) (ops : List Op) : World :=
  ops.foldl step w

/-- Configuration methods: the `...Calls`, `...Returns`, `...ReturnsOnCall`
family of all three methods. -/
def Op.isConfig : Op → Bool
  | .artifactsCalls _ | .artifactsReturns _ | .artifactsReturnsOnCall _ _ => true
  | .resultCalls _ | .resultReturns _ | .resultReturnsOnCall _ _ => true
  | .storeResultCalls _ => true
  | _ => false

/-- The three configuration methods of `Artifacts`. -/
def Op.isArtifactsConfig : Op → Bool
  | .artifactsCalls _ | .artifactsReturns _ | .artifactsReturnsOnCall _ _ => true
  | _ => false

/-- The three configuration methods of `Result`. -/
def Op.isResultConfig : Op → Bool
  | .resultCalls _ | .resultReturns _ | .resultReturnsOnCall _ _ => true
  | _ => false

/-- The arguments of the `StoreResult` calls in a sequence, in call order. -/
def storeResultCallsOf (ops : List Op) : List (PlanID × Value) :=
  ops.filterMap fun op =>
    match op with
    | .storeResult arg1 arg2 => some (arg1, arg2)
    | _ => none

/-- The arguments of the `Result` calls in a sequence, in call order. -/
def resultCallsOf (ops : List Op) : List (PlanID × Value) :=
  ops.filterMap fun op =>
    match op with
    | .result arg1 arg2 => some (arg1, arg2)
    | _ => none

/-- The number of `Artifacts` calls in a sequence. -/
def artifactsCallsOf (ops : List Op) : Nat :=
  (ops.filter fun op =>
    match op with
    | .artifacts => true
    | _ => false).length

/-- The argument list recorded in the invocation log for a two-argument call. -/
def encodeArgs (c : PlanID × Value) : List Value :=
  [Value.planID c.1, c.2]

/-- The three methods of the `exec.RunState` interface, as opposed to the
configuration methods and the accessors. -/
def Op.isCall : Op → Bool
  | .artifacts | .result _ _ | .storeResult _ _ => true
  | _ => false

/-- The list stored under a key of the invocation log for a method whose
recorded argument lists are `l`: absent until the first call. -/
def encodeLog (l : List (List Value)) : Option (List (List Value)) :=
  if l = [] then none else some l

/-- The invocation log agrees with the three per-method logs and has distinct
keys. -/
structure LogInv (fake : FakeRunState) : Prop where
  nodup : ∀ m, fake.invocations = some m → (m.map Prod.fst).Nodup
  result : fake.invocations.index "Result" = encodeLog (fake.resultArgsForCall.map encodeArgs)
  storeResult : fake.invocations.index "StoreResult"
    = encodeLog (fake.storeResultArgsForCall.map encodeArgs)
  artifacts : fake.invocations.index "Artifacts"
    = encodeLog (fake.artifactsArgsForCall.map fun _ => [])

/-- The values passed to `ResultReturnsOnCall` for index `k` in a sequence of
calls, oldest first. -/
def resultReturnsOnCallConfigured (ops : List Op) (k : Int) : List Bool :=
  ops.filterMap fun op =>
    match op with
    | .resultReturnsOnCall i v => if i = k then some v else none
    | _ => none

/-- The values passed to `ResultReturns` in a sequence of calls, oldest first. -/
def resultReturnsConfigured (ops : List Op) : List Bool :=
  ops.filterMap fun op =>
    match op with
    | .resultReturns v => some v
    | _ => none

/-- The return value rule for `Result` in the words of the specification: the
next call, whose index `k` is the number of `Result` calls made so far,
returns the value most recently configured by `ResultReturnsOnCall k` if
there is one, else the value most recently configured by `ResultReturns`,
else false. -/
def specResultReturn (ops : List Op) : Bool :=
  match (resultReturnsOnCallConfigured ops ((resultCallsOf ops).length : Int)).getLast? with
  | some v => v
  | none =>
    match (resultReturnsConfigured ops).getLast? with
    | some v => v
    | none => false

/-- The values passed to `ArtifactsReturnsOnCall` for index `k` in a sequence
of calls, oldest first. -/
def artifactsReturnsOnCallConfigured (ops : List Op) (k : Int) : List RepoPtr :=
  ops.filterMap fun op =>
    match op with
    | .artifactsReturnsOnCall i v => if i = k then some v else none
    | _ => none

/-- The values passed to `ArtifactsReturns` in a sequence of calls, oldest
first. -/
def artifactsReturnsConfigured (ops : List Op) : List RepoPtr :=
  ops.filterMap fun op =>
    match op with
    | .artifactsReturns v => some v
    | _ => none

/-- The return value rule for `Artifacts` in the words of the specification,
with nil as the default. -/
def specArtifactsReturn (ops : List Op) : RepoPtr :=
  match (artifactsReturnsOnCallConfigured ops (artifactsCallsOf ops : Int)).getLast? with
  | some v => v
  | none =>
    match (artifactsReturnsConfigured ops).getLast? with
    | some v => v
    | none => none

/-! ## Maps -/

theorem lookup_assign {K V : Type} [DecidableEq K] (m : Entries K V) (k k2 : K) (v : V) :
    lookup (assign m k v) k2 = if k = k2 then some v else lookup m k2 := by
  induction m with
  | nil => simp [assign, lookup]
  | cons e rest ih =>
    obtain ⟨k1, v1⟩ := e
    by_cases h1 : k1 = k
    · subst h1
      by_cases h2 : k1 = k2 <;> simp [assign, lookup, h2]
    · by_cases h2 : k1 = k2
      · subst h2
        have h3 : ¬ k = k1 := fun h => h1 h.symm
        simp [assign, lookup, h1, h3]
      · simp [assign, lookup, h1, h2, ih]

theorem lookup_eq_none_iff {K V : Type} [DecidableEq K] (m : Entries K V) (k : K) :
    lookup m k = none ↔ k ∉ m.map Prod.fst := by
  induction m with
  | nil => simp [lookup]
  | cons e rest ih =>
    obtain ⟨k1, v1⟩ := e
    by_cases h1 : k1 = k
    · simp [lookup, h1]
    · have h2 : ¬ k = k1 := fun h => h1 h.symm
      simp [lookup, h1, h2, ih]

theorem foldl_assign_fresh {K V : Type} [DecidableEq K] (m acc : Entries K V)
    (hm : (m.map Prod.fst).Nodup) (hd : ∀ k ∈ m.map Prod.fst, k ∉ acc.map Prod.fst) :
    m.foldl (fun c kv => assign c kv.1 kv.2) acc = acc ++ m := by
  induction m generalizing acc with
  | nil => simp
  | cons e rest ih =>
    obtain ⟨k1, v1⟩ := e
    have hfresh : ∀ (a : Entries K V), k1 ∉ a.map Prod.fst → assign a k1 v1 = a ++ [(k1, v1)] := by
      intro a
      induction a with
      | nil => intro _; rfl
      | cons x xs ihx =>
        intro hx
        obtain ⟨kx, vx⟩ := x
        simp only [List.map_cons, List.mem_cons, not_or] at hx
        have hne : ¬ kx = k1 := fun h => hx.1 h.symm
        simp [assign, hne, ihx hx.2]
    simp only [List.map_cons, List.nodup_cons] at hm
    have hk1 : k1 ∉ acc.map Prod.fst := hd k1 (by simp)
    simp only [List.foldl_cons]
    rw [hfresh acc hk1, ih (acc ++ [(k1, v1)]) hm.2]
    · simp
    · intro k hk
      have h1 : k ∉ acc.map Prod.fst := hd k (by simp [List.mem_map] at hk ⊢; exact Or.inr hk)
      have h2 : k ≠ k1 := by
        rintro rfl
        exact hm.1 hk
      simp only [List.map_append, List.map_cons, List.map_nil, List.mem_append,
        List.mem_singleton, not_or]
      exact ⟨h1, h2⟩

theorem assign_keys_nodup {K V : Type} [DecidableEq K] (m : Entries K V) (k : K) (v : V)
    (hm : (m.map Prod.fst).Nodup) : ((assign m k v).map Prod.fst).Nodup := by
  induction m with
  | nil => simp [assign]
  | cons e rest ih =>
    obtain ⟨k1, v1⟩ := e
    simp only [List.map_cons, List.nodup_cons] at hm
    by_cases h1 : k1 = k
    · subst h1
      simpa [assign] using hm
    · simp only [assign, h1, if_false, List.map_cons, List.nodup_cons]
      refine ⟨?_, ih hm.2⟩
      intro hmem
      have hnone := (lookup_eq_none_iff rest k1).mpr hm.1
      have hne : lookup (assign rest k v) k1 ≠ none := by
        intro h
        exact ((lookup_eq_none_iff _ _).mp h) hmem
      rw [lookup_assign] at hne
      have h2 : ¬ k = k1 := fun h => h1 h.symm
      simp [h2, hnone] at hne

theorem goIndex_eq_none_iff {α : Type} (xs : List α) (i : Int) :
    goIndex xs i = none ↔ i < 0 ∨ (xs.length : Int) ≤ i := by
  unfold goIndex
  by_cases h : 0 ≤ i
  · simp only [h, if_true, List.getElem?_eq_none_iff]
    omega
  · simp only [h, if_false, true_iff]
    omega

theorem goIndex_natCast {α : Type} (xs : List α) (i : Nat) :
    goIndex xs (i : Int) = xs[i]? := by
  simp [goIndex]

/-! ## Effect of each method on the fields of the fake -/

namespace FakeRunState

@[simp] theorem recordInvocation_ArtifactsStub (fake : FakeRunState) (k : String)
    (a : List Value) : (fake.recordInvocation k a).ArtifactsStub = fake.ArtifactsStub := rfl

@[simp] theorem recordInvocation_artifactsArgsForCall (fake : FakeRunState) (k : String)
    (a : List Value) :
    (fake.recordInvocation k a).artifactsArgsForCall = fake.artifactsArgsForCall := rfl

@[simp] theorem recordInvocation_artifactsReturns (fake : FakeRunState) (k : String)
    (a : List Value) : (fake.recordInvocation k a).artifactsReturns = fake.artifactsReturns := rfl

@[simp] theorem recordInvocation_artifactsReturnsOnCall (fake : FakeRunState) (k : String)
    (a : List Value) :
    (fake.recordInvocation k a).artifactsReturnsOnCall = fake.artifactsReturnsOnCall := rfl

@[simp] theorem recordInvocation_ResultStub (fake : FakeRunState) (k : String)
    (a : List Value) : (fake.recordInvocation k a).ResultStub = fake.ResultStub := rfl

@[simp] theorem recordInvocation_resultArgsForCall (fake : FakeRunState) (k : String)
    (a : List Value) :
    (fake.recordInvocation k a).resultArgsForCall = fake.resultArgsForCall := rfl

@[simp] theorem recordInvocation_resultReturns (fake : FakeRunState) (k : String)
    (a : List Value) : (fake.recordInvocation k a).resultReturns = fake.resultReturns := rfl

@[simp] theorem recordInvocation_resultReturnsOnCall (fake : FakeRunState) (k : String)
    (a : List Value) :
    (fake.recordInvocation k a).resultReturnsOnCall = fake.resultReturnsOnCall := rfl

@[simp] theorem recordInvocation_StoreResultStub (fake : FakeRunState) (k : String)
    (a : List Value) : (fake.recordInvocation k a).StoreResultStub = fake.StoreResultStub := rfl

@[simp] theorem recordInvocation_storeResultArgsForCall (fake : FakeRunState) (k : String)
    (a : List Value) :
    (fake.recordInvocation k a).storeResultArgsForCall = fake.storeResultArgsForCall := rfl

/-- The fake after `Artifacts`: one more recorded call, whichever branch returns. -/
theorem Artifacts_fake (fake : FakeRunState) (mem : Mem) :
    (fake.Artifacts mem).2.1 =
      ({ fake with artifactsArgsForCall := fake.artifactsArgsForCall ++ [()] } :
        FakeRunState).recordInvocation "Artifacts" [] := by
  unfold Artifacts
  simp only
  split
  · rfl
  · split <;> rfl

/-- The fake after `Result`: one more recorded call, whichever branch returns. -/
theorem Result_fake (fake : FakeRunState) (arg1 : PlanID) (arg2 : Value) (mem : Mem) :
    (fake.Result arg1 arg2 mem).2.1 =
      ({ fake with resultArgsForCall := fake.resultArgsForCall ++ [(arg1, arg2)] } :
        FakeRunState).recordInvocation "Result" [Value.planID arg1, arg2] := by
  unfold Result
  simp only
  split
  · rfl
  · split <;> rfl

/-- The fake after `StoreResult`: one more recorded call, stub or no stub. -/
theorem StoreResult_fake (fake : FakeRunState) (arg1 : PlanID) (arg2 : Value) (mem : Mem) :
    (fake.StoreResult arg1 arg2 mem).1 =
      ({ fake with storeResultArgsForCall := fake.storeResultArgsForCall ++ [(arg1, arg2)] } :
        FakeRunState).recordInvocation "StoreResult" [Value.planID arg1, arg2] := by
  unfold StoreResult
  simp only
  split <;> rfl

/-- With no stub installed, `Result` returns the per-call value if the call's
index has one and the fixed value otherwise, and does not touch memory. -/
theorem Result_no_stub (fake : FakeRunState) (arg1 : PlanID) (arg2 : Value) (mem : Mem)
    (h : fake.ResultStub = none) :
    (fake.Result arg1 arg2 mem).1 =
        ((fake.resultReturnsOnCall.index (fake.resultArgsForCall.length : Int)).getD
          fake.resultReturns) ∧
      (fake.Result arg1 arg2 mem).2.2 = mem := by
  unfold Result
  simp only [recordInvocation_ResultStub, h, recordInvocation_resultReturns]
  split <;> rename_i hs <;> simp [hs]

/-- With no stub installed, `Artifacts` returns the per-call value if the
call's index has one and the fixed value otherwise, and does not touch memory. -/
theorem Artifacts_no_stub (fake : FakeRunState) (mem : Mem)
    (h : fake.ArtifactsStub = none) :
    (fake.Artifacts mem).1 =
        ((fake.artifactsReturnsOnCall.index (fake.artifactsArgsForCall.length : Int)).getD
          fake.artifactsReturns) ∧
      (fake.Artifacts mem).2.2 = mem := by
  unfold Artifacts
  simp only [recordInvocation_ArtifactsStub, h, recordInvocation_artifactsReturns]
  split <;> rename_i hs <;> simp [hs]

/-- With a stub installed, `Result` returns what the stub returns on the same
arguments, and memory is what the stub leaves. -/
theorem Result_stub (fake : FakeRunState) (arg1 : PlanID) (arg2 : Value) (mem : Mem)
    (stub : PlanID → Value → Mem → Bool × Mem) (h : fake.ResultStub = some stub) :
    (fake.Result arg1 arg2 mem).1 = (stub arg1 arg2 mem).1 ∧
      (fake.Result arg1 arg2 mem).2.2 = (stub arg1 arg2 mem).2 := by
  unfold Result
  simp [h]

end FakeRunState

/-! ## Runs -/

theorem run_nil (w : World) : run w [] = w := rfl

theorem run_cons (w : World) (op : Op) (ops : List Op) :
    run w (op :: ops) = run (step w op) ops := rfl

theorem run_append (w : World) (ops1 ops2 : List Op) :
    run w (ops1 ++ ops2) = run (run w ops1) ops2 := by
  simp [run, List.foldl_append]

theorem storeResultCallsOf_cons (op : Op) (ops : List Op) :
    storeResultCallsOf (op :: ops) = storeResultCallsOf [op] ++ storeResultCallsOf ops := by
  cases op <;> simp [storeResultCallsOf, List.filterMap_cons]

theorem resultCallsOf_cons (op : Op) (ops : List Op) :
    resultCallsOf (op :: ops) = resultCallsOf [op] ++ resultCallsOf ops := by
  cases op <;> simp [resultCallsOf, List.filterMap_cons]

theorem artifactsCallsOf_cons (op : Op) (ops : List Op) :
    artifactsCallsOf (op :: ops) = artifactsCallsOf [op] + artifactsCallsOf ops := by
  cases op <;> simp [artifactsCallsOf, List.filter_cons]
  omega

theorem step_storeResultArgsForCall (w : World) (op : Op) :
    (step w op).1.storeResultArgsForCall =
      w.1.storeResultArgsForCall ++ storeResultCallsOf [op] := by
  cases op <;>
    simp [step, storeResultCallsOf, FakeRunState.Artifacts_fake, FakeRunState.Result_fake,
      FakeRunState.StoreResult_fake, FakeRunState.ArtifactsCalls, FakeRunState.ArtifactsReturns,
      FakeRunState.ArtifactsReturnsOnCall, FakeRunState.ResultCalls, FakeRunState.ResultReturns,
      FakeRunState.ResultReturnsOnCall, FakeRunState.StoreResultCalls]

theorem step_resultArgsForCall (w : World) (op : Op) :
    (step w op).1.resultArgsForCall = w.1.resultArgsForCall ++ resultCallsOf [op] := by
  cases op <;>
    simp [step, resultCallsOf, FakeRunState.Artifacts_fake, FakeRunState.Result_fake,
      FakeRunState.StoreResult_fake, FakeRunState.ArtifactsCalls, FakeRunState.ArtifactsReturns,
      FakeRunState.ArtifactsReturnsOnCall, FakeRunState.ResultCalls, FakeRunState.ResultReturns,
      FakeRunState.ResultReturnsOnCall, FakeRunState.StoreResultCalls]

theorem step_artifactsArgsForCall (w : World) (op : Op) :
    (step w op).1.artifactsArgsForCall.length =
      w.1.artifactsArgsForCall.length + artifactsCallsOf [op] := by
  cases op <;>
    simp [step, artifactsCallsOf, FakeRunState.Artifacts_fake, FakeRunState.Result_fake,
      FakeRunState.StoreResult_fake, FakeRunState.ArtifactsCalls, FakeRunState.ArtifactsReturns,
      FakeRunState.ArtifactsReturnsOnCall, FakeRunState.ResultCalls, FakeRunState.ResultReturns,
      FakeRunState.ResultReturnsOnCall, FakeRunState.StoreResultCalls]

theorem run_storeResultArgsForCall (w : World) (ops : List Op) :
    (run w ops).1.storeResultArgsForCall =
      w.1.storeResultArgsForCall ++ storeResultCallsOf ops := by
  induction ops generalizing w with
  | nil => simp [run_nil, storeResultCallsOf]
  | cons op ops ih =>
    rw [run_cons, ih, step_storeResultArgsForCall, storeResultCallsOf_cons op ops,
      List.append_assoc]

theorem run_resultArgsForCall (w : World) (ops : List Op) :
    (run w ops).1.resultArgsForCall = w.1.resultArgsForCall ++ resultCallsOf ops := by
  induction ops generalizing w with
  | nil => simp [run_nil, resultCallsOf]
  | cons op ops ih =>
    rw [run_cons, ih, step_resultArgsForCall, resultCallsOf_cons op ops, List.append_assoc]

theorem run_artifactsArgsForCall (w : World) (ops : List Op) :
    (run w ops).1.artifactsArgsForCall.length =
      w.1.artifactsArgsForCall.length + artifactsCallsOf ops := by
  induction ops generalizing w with
  | nil => simp [run_nil, artifactsCallsOf]
  | cons op ops ih =>
    rw [run_cons, ih, step_artifactsArgsForCall, artifactsCallsOf_cons op ops, Nat.add_assoc]

theorem callsOf_of_not_isCall (op : Op) (h : op.isCall = false) :
    storeResultCallsOf [op] = [] ∧ resultCallsOf [op] = [] ∧ artifactsCallsOf [op] = 0 := by
  cases op <;> simp_all [Op.isCall, storeResultCallsOf, resultCallsOf, artifactsCallsOf]

theorem run_empty_storeResultArgsForCall (ops : List Op) (mem : Mem) :
    (run (FakeRunState.empty, mem) ops).1.storeResultArgsForCall = storeResultCallsOf ops := by
  rw [run_storeResultArgsForCall]
  rfl

theorem run_empty_resultArgsForCall (ops : List Op) (mem : Mem) :
    (run (FakeRunState.empty, mem) ops).1.resultArgsForCall = resultCallsOf ops := by
  rw [run_resultArgsForCall]
  rfl

theorem run_empty_artifactsArgsForCall (ops : List Op) (mem : Mem) :
    (run (FakeRunState.empty, mem) ops).1.artifactsArgsForCall.length = artifactsCallsOf ops := by
  rw [run_artifactsArgsForCall]
  exact Nat.zero_add _

/-! ## The invocation log -/

/-- What `recordInvocation` does to the map, key by key: the list under the
recorded key grows by the argument list, every other key is as before. -/
theorem FakeRunState.recordInvocation_index (fake : FakeRunState) (key k : String)
    (args : List Value) :
    (fake.recordInvocation key args).invocations.index k =
      if key = k then some ((fake.invocations.index key).getD [] ++ [args])
      else fake.invocations.index k := by
  unfold FakeRunState.recordInvocation GoMap.index GoMap.entries
  cases hinv : fake.invocations with
  | none =>
    by_cases hk : key = k <;> simp [lookup, assign, lookup_assign, hk]
  | some m =>
    by_cases hk : key = k
    · subst hk
      cases hl : lookup m key <;> simp [lookup_assign, hl]
    · cases hl : lookup m key <;> simp [lookup_assign, hk, hl]

/-- The function `recordInvocation` keeps the keys of the map distinct. -/
theorem FakeRunState.recordInvocation_nodup (fake : FakeRunState) (key : String)
    (args : List Value)
    (h : ∀ m, fake.invocations = some m → (m.map Prod.fst).Nodup) :
    ∀ m, (fake.recordInvocation key args).invocations = some m → (m.map Prod.fst).Nodup := by
  intro m hm
  unfold FakeRunState.recordInvocation at hm
  simp only [Option.some.injEq] at hm
  subst hm
  apply assign_keys_nodup
  have hbase : (fake.invocations.entries.map Prod.fst).Nodup := by
    cases hinv : fake.invocations with
    | none => simp [GoMap.entries]
    | some m0 => exact h m0 hinv
  split
  · exact assign_keys_nodup _ _ _ hbase
  · exact hbase

theorem encodeLog_append (l : List (List Value)) (x : List Value) :
    some ((encodeLog l).getD [] ++ [x]) = encodeLog (l ++ [x]) := by
  unfold encodeLog
  by_cases h : l = [] <;> simp [h]

theorem LogInv_empty : LogInv FakeRunState.empty where
  nodup := by intro m hm; cases hm
  result := rfl
  storeResult := rfl
  artifacts := rfl

theorem LogInv_Artifacts (fake : FakeRunState) (mem : Mem) (h : LogInv fake) :
    LogInv (fake.Artifacts mem).2.1 := by
  rw [FakeRunState.Artifacts_fake]
  refine ⟨FakeRunState.recordInvocation_nodup _ _ _ h.nodup, ?_, ?_, ?_⟩
  · rw [FakeRunState.recordInvocation_index, if_neg (by decide)]
    exact h.result
  · rw [FakeRunState.recordInvocation_index, if_neg (by decide)]
    exact h.storeResult
  · rw [FakeRunState.recordInvocation_index, if_pos rfl]
    have := h.artifacts
    simp only [FakeRunState.recordInvocation_artifactsArgsForCall, List.map_append,
      List.map_cons, List.map_nil] at this ⊢
    rw [this]
    exact encodeLog_append _ _

theorem LogInv_Result (fake : FakeRunState) (arg1 : PlanID) (arg2 : Value) (mem : Mem)
    (h : LogInv fake) : LogInv (fake.Result arg1 arg2 mem).2.1 := by
  rw [FakeRunState.Result_fake]
  refine ⟨FakeRunState.recordInvocation_nodup _ _ _ h.nodup, ?_, ?_, ?_⟩
  · rw [FakeRunState.recordInvocation_index, if_pos rfl]
    have := h.result
    simp only [FakeRunState.recordInvocation_resultArgsForCall, List.map_append,
      List.map_cons, List.map_nil] at this ⊢
    rw [this]
    exact encodeLog_append _ _
  · rw [FakeRunState.recordInvocation_index, if_neg (by decide)]
    exact h.storeResult
  · rw [FakeRunState.recordInvocation_index, if_neg (by decide)]
    exact h.artifacts

theorem LogInv_StoreResult (fake : FakeRunState) (arg1 : PlanID) (arg2 : Value) (mem : Mem)
    (h : LogInv fake) : LogInv (fake.StoreResult arg1 arg2 mem).1 := by
  rw [FakeRunState.StoreResult_fake]
  refine ⟨FakeRunState.recordInvocation_nodup _ _ _ h.nodup, ?_, ?_, ?_⟩
  · rw [FakeRunState.recordInvocation_index, if_neg (by decide)]
    exact h.result
  · rw [FakeRunState.recordInvocation_index, if_pos rfl]
    have := h.storeResult
    simp only [FakeRunState.recordInvocation_storeResultArgsForCall, List.map_append,
      List.map_cons, List.map_nil] at this ⊢
    rw [this]
    exact encodeLog_append _ _
  · rw [FakeRunState.recordInvocation_index, if_neg (by decide)]
    exact h.artifacts

theorem LogInv_step (w : World) (op : Op) (h : LogInv w.1) : LogInv (step w op).1 := by
  cases op with
  | artifacts => exact LogInv_Artifacts _ _ h
  | result arg1 arg2 => exact LogInv_Result _ _ _ _ h
  | storeResult arg1 arg2 => exact LogInv_StoreResult _ _ _ _ h
  | artifactsCallCount => exact h
  | resultCallCount => exact h
  | storeResultCallCount => exact h
  | resultArgsForCall i => exact h
  | storeResultArgsForCall i => exact h
  | invocations => exact h
  | artifactsCalls stub => exact ⟨h.nodup, h.result, h.storeResult, h.artifacts⟩
  | artifactsReturns r => exact ⟨h.nodup, h.result, h.storeResult, h.artifacts⟩
  | artifactsReturnsOnCall i r => exact ⟨h.nodup, h.result, h.storeResult, h.artifacts⟩
  | resultCalls stub => exact ⟨h.nodup, h.result, h.storeResult, h.artifacts⟩
  | resultReturns b => exact ⟨h.nodup, h.result, h.storeResult, h.artifacts⟩
  | resultReturnsOnCall i b => exact ⟨h.nodup, h.result, h.storeResult, h.artifacts⟩
  | storeResultCalls stub => exact ⟨h.nodup, h.result, h.storeResult, h.artifacts⟩

theorem LogInv_run (w : World) (ops : List Op) (h : LogInv w.1) : LogInv (run w ops).1 := by
  induction ops generalizing w with
  | nil => exact h
  | cons op ops ih => exact ih (step w op) (LogInv_step w op h)

/-- When the keys are distinct, `Invocations` returns a map with the entries of
the log itself. -/
theorem Invocations_lookup (fake : FakeRunState) (k : String)
    (h : ∀ m, fake.invocations = some m → (m.map Prod.fst).Nodup) :
    lookup fake.Invocations k = fake.invocations.index k := by
  unfold FakeRunState.Invocations GoMap.index GoMap.entries
  cases hinv : fake.invocations with
  | none => rfl
  | some m =>
    simp only
    rw [foldl_assign_fresh m [] (h m hinv) (by simp)]
    rfl

/-! ## Frame lemmas: what only the configuration methods can change -/

theorem step_result_config_frame (w : World) (op : Op) (h : op.isResultConfig = false) :
    (step w op).1.ResultStub = w.1.ResultStub ∧
    (step w op).1.resultReturns = w.1.resultReturns ∧
    (step w op).1.resultReturnsOnCall = w.1.resultReturnsOnCall := by
  cases op <;>
    simp_all [Op.isResultConfig, step, FakeRunState.Artifacts_fake, FakeRunState.Result_fake,
      FakeRunState.StoreResult_fake, FakeRunState.ArtifactsCalls, FakeRunState.ArtifactsReturns,
      FakeRunState.ArtifactsReturnsOnCall, FakeRunState.StoreResultCalls]

theorem step_artifacts_config_frame (w : World) (op : Op) (h : op.isArtifactsConfig = false) :
    (step w op).1.ArtifactsStub = w.1.ArtifactsStub ∧
    (step w op).1.artifactsReturns = w.1.artifactsReturns ∧
    (step w op).1.artifactsReturnsOnCall = w.1.artifactsReturnsOnCall := by
  cases op <;>
    simp_all [Op.isArtifactsConfig, step, FakeRunState.Artifacts_fake, FakeRunState.Result_fake,
      FakeRunState.StoreResult_fake, FakeRunState.ResultCalls, FakeRunState.ResultReturns,
      FakeRunState.ResultReturnsOnCall, FakeRunState.StoreResultCalls]

theorem run_result_config_frame (w : World) (ops : List Op)
    (h : ∀ op ∈ ops, op.isResultConfig = false) :
    (run w ops).1.ResultStub = w.1.ResultStub ∧
    (run w ops).1.resultReturns = w.1.resultReturns ∧
    (run w ops).1.resultReturnsOnCall = w.1.resultReturnsOnCall := by
  induction ops generalizing w with
  | nil => exact ⟨rfl, rfl, rfl⟩
  | cons op ops ih =>
    have h1 := step_result_config_frame w op (h op (List.mem_cons_self _ _))
    have h2 := ih (step w op) (fun o ho => h o (List.mem_cons_of_mem _ ho))
    rw [run_cons]
    exact ⟨h2.1.trans h1.1, h2.2.1.trans h1.2.1, h2.2.2.trans h1.2.2⟩

theorem run_artifacts_config_frame (w : World) (ops : List Op)
    (h : ∀ op ∈ ops, op.isArtifactsConfig = false) :
    (run w ops).1.ArtifactsStub = w.1.ArtifactsStub ∧
    (run w ops).1.artifactsReturns = w.1.artifactsReturns ∧
    (run w ops).1.artifactsReturnsOnCall = w.1.artifactsReturnsOnCall := by
  induction ops generalizing w with
  | nil => exact ⟨rfl, rfl, rfl⟩
  | cons op ops ih =>
    have h1 := step_artifacts_config_frame w op (h op (List.mem_cons_self _ _))
    have h2 := ih (step w op) (fun o ho => h o (List.mem_cons_of_mem _ ho))
    rw [run_cons]
    exact ⟨h2.1.trans h1.1, h2.2.1.trans h1.2.1, h2.2.2.trans h1.2.2⟩

theorem isResultConfig_of_not_isConfig (op : Op) (h : op.isConfig = false) :
    op.isResultConfig = false := by
  cases op <;> simp_all [Op.isConfig, Op.isResultConfig]

theorem isArtifactsConfig_of_not_isConfig (op : Op) (h : op.isConfig = false) :
    op.isArtifactsConfig = false := by
  cases op <;> simp_all [Op.isConfig, Op.isArtifactsConfig]

/-! ## Configured return values along a run -/

theorem GoMap.index_assign {K V : Type} [DecidableEq K] (m : GoMap K V) (i k : K) (v : V) :
    GoMap.index (some (assign m.entries i v)) k = if i = k then some v else m.index k := by
  cases m with
  | none => by_cases h : i = k <;> simp [GoMap.index, GoMap.entries, assign, lookup, h]
  | some es => simp [GoMap.index, GoMap.entries, lookup_assign]

theorem step_resultReturnsOnCall_index (w : World) (op : Op) (k : Int) :
    (step w op).1.resultReturnsOnCall.index k =
      ((resultReturnsOnCallConfigured [op] k).getLast?).or (w.1.resultReturnsOnCall.index k) := by
  cases op with
  | resultReturnsOnCall i b =>
    have h := GoMap.index_assign w.1.resultReturnsOnCall i k b
    by_cases hik : i = k
    · simpa [step, FakeRunState.ResultReturnsOnCall, resultReturnsOnCallConfigured, hik]
        using h
    · simpa [step, FakeRunState.ResultReturnsOnCall, resultReturnsOnCallConfigured, hik]
        using h
  | _ =>
    simp [step, resultReturnsOnCallConfigured, FakeRunState.Artifacts_fake,
      FakeRunState.Result_fake, FakeRunState.StoreResult_fake, FakeRunState.ArtifactsCalls,
      FakeRunState.ArtifactsReturns, FakeRunState.ArtifactsReturnsOnCall,
      FakeRunState.ResultCalls, FakeRunState.ResultReturns, FakeRunState.StoreResultCalls]

theorem step_artifactsReturnsOnCall_index (w : World) (op : Op) (k : Int) :
    (step w op).1.artifactsReturnsOnCall.index k =
      ((artifactsReturnsOnCallConfigured [op] k).getLast?).or
        (w.1.artifactsReturnsOnCall.index k) := by
  cases op with
  | artifactsReturnsOnCall i b =>
    have h := GoMap.index_assign w.1.artifactsReturnsOnCall i k b
    by_cases hik : i = k
    · simpa [step, FakeRunState.ArtifactsReturnsOnCall, artifactsReturnsOnCallConfigured, hik]
        using h
    · simpa [step, FakeRunState.ArtifactsReturnsOnCall, artifactsReturnsOnCallConfigured, hik]
        using h
  | _ =>
    simp [step, artifactsReturnsOnCallConfigured, FakeRunState.Artifacts_fake,
      FakeRunState.Result_fake, FakeRunState.StoreResult_fake, FakeRunState.ArtifactsCalls,
      FakeRunState.ArtifactsReturns, FakeRunState.ResultReturnsOnCall,
      FakeRunState.ResultCalls, FakeRunState.ResultReturns, FakeRunState.StoreResultCalls]

theorem step_resultReturns (w : World) (op : Op) :
    (step w op).1.resultReturns =
      ((resultReturnsConfigured [op]).getLast?).getD w.1.resultReturns := by
  cases op <;>
    simp [step, resultReturnsConfigured, FakeRunState.Artifacts_fake,
      FakeRunState.Result_fake, FakeRunState.StoreResult_fake, FakeRunState.ArtifactsCalls,
      FakeRunState.ArtifactsReturns, FakeRunState.ArtifactsReturnsOnCall,
      FakeRunState.ResultReturnsOnCall, FakeRunState.ResultCalls, FakeRunState.ResultReturns,
      FakeRunState.StoreResultCalls]

theorem step_artifactsReturns (w : World) (op : Op) :
    (step w op).1.artifactsReturns =
      ((artifactsReturnsConfigured [op]).getLast?).getD w.1.artifactsReturns := by
  cases op <;>
    simp [step, artifactsReturnsConfigured, FakeRunState.Artifacts_fake,
      FakeRunState.Result_fake, FakeRunState.StoreResult_fake, FakeRunState.ArtifactsCalls,
      FakeRunState.ArtifactsReturns, FakeRunState.ArtifactsReturnsOnCall,
      FakeRunState.ResultReturnsOnCall, FakeRunState.ResultCalls, FakeRunState.ResultReturns,
      FakeRunState.StoreResultCalls]

theorem run_empty_resultReturnsOnCall (ops : List Op) (mem : Mem) (k : Int) :
    (run (FakeRunState.empty, mem) ops).1.resultReturnsOnCall.index k =
      (resultReturnsOnCallConfigured ops k).getLast? := by
  induction ops using List.reverseRecOn with
  | nil => rfl
  | append_singleton l a ih =>
    rw [run_append, run_cons, run_nil, step_resultReturnsOnCall_index, ih]
    simp [resultReturnsOnCallConfigured, List.filterMap_append]

theorem run_empty_artifactsReturnsOnCall (ops : List Op) (mem : Mem) (k : Int) :
    (run (FakeRunState.empty, mem) ops).1.artifactsReturnsOnCall.index k =
      (artifactsReturnsOnCallConfigured ops k).getLast? := by
  induction ops using List.reverseRecOn with
  | nil => rfl
  | append_singleton l a ih =>
    rw [run_append, run_cons, run_nil, step_artifactsReturnsOnCall_index, ih]
    simp [artifactsReturnsOnCallConfigured, List.filterMap_append]

theorem run_empty_resultReturns (ops : List Op) (mem : Mem) :
    (run (FakeRunState.empty, mem) ops).1.resultReturns =
      ((resultReturnsConfigured ops).getLast?).getD false := by
  induction ops using List.reverseRecOn with
  | nil => rfl
  | append_singleton l a ih =>
    rw [run_append, run_cons, run_nil, step_resultReturns, ih]
    cases h : (resultReturnsConfigured [a]).getLast? <;>
      simp [resultReturnsConfigured, List.filterMap_append] at h ⊢ <;> simp [h]

theorem run_empty_artifactsReturns (ops : List Op) (mem : Mem) :
    (run (FakeRunState.empty, mem) ops).1.artifactsReturns =
      ((artifactsReturnsConfigured ops).getLast?).getD none := by
  induction ops using List.reverseRecOn with
  | nil => rfl
  | append_singleton l a ih =>
    rw [run_append, run_cons, run_nil, step_artifactsReturns, ih]
    cases h : (artifactsReturnsConfigured [a]).getLast? <;>
      simp [artifactsReturnsConfigured, List.filterMap_append] at h ⊢ <;> simp [h]

theorem encodeLog_getD (l : List (List Value)) : (encodeLog l).getD [] = l := by
  unfold encodeLog
  by_cases h : l = [] <;> simp [h]

theorem encodeLog_eq_none_iff (l : List (List Value)) : encodeLog l = none ↔ l.length = 0 := by
  unfold encodeLog
  by_cases h : l = [] <;> simp [h]

/-! ## The claims -/

/-- C1, as stated, fails: on the zero-value fake, after `StoreResult "build" 7`
the call `Result "build" out` returns false and the slot `out` points to
still holds what it held, not 7. -/
theorem storeResult_then_result_counterexample :
    ((FakeRunState.empty.StoreResult "build" (Value.int 7) (fun _ => Value.int 0)).1.Result
        "build" (Value.ptr 0)
        (FakeRunState.empty.StoreResult "build" (Value.int 7) (fun _ => Value.int 0)).2).1
      = false ∧
    ((FakeRunState.empty.StoreResult "build" (Value.int 7) (fun _ => Value.int 0)).1.Result
        "build" (Value.ptr 0)
        (FakeRunState.empty.StoreResult "build" (Value.int 7) (fun _ => Value.int 0)).2).2.2 0
      ≠ Value.int 7 := by
  decide

/-- C1, amended: on a fake with neither a `Result` stub nor a `StoreResult`
stub installed, after `StoreResult s v` the call `Result s out` returns the
configured return value (the per-call value for this call's index, else the
fixed value, which is false unless configured), which is what it returns
without the `StoreResult`, and memory, so the slot behind `out`, is as it was
before both calls.  The `StoreResult` call appends `(s, v)` to its call log
and `[s, v]` to the invocation log under "StoreResult", and changes no other
key of the invocation log, no other field of the fake and no memory. -/
theorem storeResult_then_result (fake : FakeRunState) (s : PlanID) (v out : Value)
    (mem : Mem) (hR : fake.ResultStub = none) (hS : fake.StoreResultStub = none) :
    (((fake.StoreResult s v mem).1.Result s out (fake.StoreResult s v mem).2).1
        = (fake.Result s out mem).1 ∧
      ((fake.StoreResult s v mem).1.Result s out (fake.StoreResult s v mem).2).1
        = (fake.resultReturnsOnCall.index (fake.resultArgsForCall.length : Int)).getD
            fake.resultReturns ∧
      ((fake.StoreResult s v mem).1.Result s out (fake.StoreResult s v mem).2).2.2 = mem) ∧
    ((fake.StoreResult s v mem).1.storeResultArgsForCall
        = fake.storeResultArgsForCall ++ [(s, v)] ∧
      (∀ k : String, (fake.StoreResult s v mem).1.invocations.index k
        = if "StoreResult" = k then
            some ((fake.invocations.index "StoreResult").getD [] ++ [[Value.planID s, v]])
          else fake.invocations.index k) ∧
      (fake.StoreResult s v mem).2 = mem) ∧
    ((fake.StoreResult s v mem).1.ArtifactsStub = fake.ArtifactsStub ∧
      (fake.StoreResult s v mem).1.artifactsArgsForCall = fake.artifactsArgsForCall ∧
      (fake.StoreResult s v mem).1.artifactsReturns = fake.artifactsReturns ∧
      (fake.StoreResult s v mem).1.artifactsReturnsOnCall = fake.artifactsReturnsOnCall ∧
      (fake.StoreResult s v mem).1.ResultStub = fake.ResultStub ∧
      (fake.StoreResult s v mem).1.resultArgsForCall = fake.resultArgsForCall ∧
      (fake.StoreResult s v mem).1.resultReturns = fake.resultReturns ∧
      (fake.StoreResult s v mem).1.resultReturnsOnCall = fake.resultReturnsOnCall ∧
      (fake.StoreResult s v mem).1.StoreResultStub = fake.StoreResultStub) := by
  have hmem : (fake.StoreResult s v mem).2 = mem := by
    unfold FakeRunState.StoreResult
    simp only [FakeRunState.recordInvocation_StoreResultStub, hS]
  have hfields : (fake.StoreResult s v mem).1.ArtifactsStub = fake.ArtifactsStub ∧
      (fake.StoreResult s v mem).1.artifactsArgsForCall = fake.artifactsArgsForCall ∧
      (fake.StoreResult s v mem).1.artifactsReturns = fake.artifactsReturns ∧
      (fake.StoreResult s v mem).1.artifactsReturnsOnCall = fake.artifactsReturnsOnCall ∧
      (fake.StoreResult s v mem).1.ResultStub = fake.ResultStub ∧
      (fake.StoreResult s v mem).1.resultArgsForCall = fake.resultArgsForCall ∧
      (fake.StoreResult s v mem).1.resultReturns = fake.resultReturns ∧
      (fake.StoreResult s v mem).1.resultReturnsOnCall = fake.resultReturnsOnCall ∧
      (fake.StoreResult s v mem).1.StoreResultStub = fake.StoreResultStub := by
    rw [FakeRunState.StoreResult_fake]
    exact ⟨rfl, rfl, rfl, rfl, rfl, rfl, rfl, rfl, rfl⟩
  have hR1 : (fake.StoreResult s v mem).1.ResultStub = none :=
    hfields.2.2.2.2.1.trans hR
  have h1 := FakeRunState.Result_no_stub (fake.StoreResult s v mem).1 s out
    (fake.StoreResult s v mem).2 hR1
  have h0 := FakeRunState.Result_no_stub fake s out mem hR
  rw [hfields.2.2.2.2.2.2.2.1, hfields.2.2.2.2.2.1, hfields.2.2.2.2.2.2.1] at h1
  refine ⟨⟨h1.1.trans h0.1.symm, h1.1, h1.2.trans hmem⟩, ⟨?_, ?_, hmem⟩, hfields⟩
  · rw [FakeRunState.StoreResult_fake]
    rfl
  · intro k
    rw [FakeRunState.StoreResult_fake, FakeRunState.recordInvocation_index]

/-- Witness for C1 amended: a fake with no stub whose fixed return value was
set to true; `Result` answers true after the `StoreResult` as before it, and
the slot behind `out` still holds 0. -/
theorem storeResult_then_result_witness :
    (FakeRunState.empty.ResultReturns true).ResultStub = none ∧
    (FakeRunState.empty.ResultReturns true).StoreResultStub = none ∧
    (((FakeRunState.empty.ResultReturns true).StoreResult "build" (Value.int 7)
        (fun _ => Value.int 0)).1.Result "build" (Value.ptr 0)
      ((FakeRunState.empty.ResultReturns true).StoreResult "build" (Value.int 7)
        (fun _ => Value.int 0)).2).1
      = ((FakeRunState.empty.ResultReturns true).Result "build" (Value.ptr 0)
          (fun _ => Value.int 0)).1 ∧
    (((FakeRunState.empty.ResultReturns true).StoreResult "build" (Value.int 7)
        (fun _ => Value.int 0)).1.Result "build" (Value.ptr 0)
      ((FakeRunState.empty.ResultReturns true).StoreResult "build" (Value.int 7)
        (fun _ => Value.int 0)).2).2.2 = fun _ => Value.int 0 :=
  ⟨rfl, rfl,
    (storeResult_then_result (FakeRunState.empty.ResultReturns true) "build" (Value.int 7)
      (Value.ptr 0) (fun _ => Value.int 0) rfl rfl).1.1,
    (storeResult_then_result (FakeRunState.empty.ResultReturns true) "build" (Value.int 7)
      (Value.ptr 0) (fun _ => Value.int 0) rfl rfl).1.2.2⟩

/-- C2: on the zero-value fake, after any calls none of which is a
configuration method, for every plan ID `s` never passed to `StoreResult`,
`Result s out` returns false and leaves memory, so the slot behind `out`,
unmodified. -/
theorem result_never_stored (ops : List Op) (mem : Mem) (s : PlanID) (out : Value)
    (hcfg : ∀ op ∈ ops, op.isConfig = false)
    (_hs : s ∉ (storeResultCallsOf ops).map Prod.fst) :
    ((run (FakeRunState.empty, mem) ops).1.Result s out
        (run (FakeRunState.empty, mem) ops).2).1 = false ∧
    ((run (FakeRunState.empty, mem) ops).1.Result s out
        (run (FakeRunState.empty, mem) ops).2).2.2 = (run (FakeRunState.empty, mem) ops).2 := by
  have hf := run_result_config_frame (FakeRunState.empty, mem) ops
    (fun op hop => isResultConfig_of_not_isConfig op (hcfg op hop))
  have h := FakeRunState.Result_no_stub (run (FakeRunState.empty, mem) ops).1 s out
    (run (FakeRunState.empty, mem) ops).2 (hf.1.trans rfl)
  rw [hf.2.1, hf.2.2] at h
  exact ⟨h.1.trans rfl, h.2⟩

/-- Witness for C2: step "check" never ran; other steps stored and read. -/
theorem result_never_stored_witness :
    (∀ op ∈ [Op.storeResult "build" (Value.int 1), Op.artifacts,
        Op.result "build" (Value.ptr 1), Op.storeResultArgsForCall 3, Op.invocations],
      op.isConfig = false) ∧
    "check" ∉ (storeResultCallsOf [Op.storeResult "build" (Value.int 1), Op.artifacts,
        Op.result "build" (Value.ptr 1), Op.storeResultArgsForCall 3, Op.invocations]).map
          Prod.fst ∧
    ((run (FakeRunState.empty, fun _ => Value.nil)
        [Op.storeResult "build" (Value.int 1), Op.artifacts,
          Op.result "build" (Value.ptr 1), Op.storeResultArgsForCall 3, Op.invocations]).1.Result
        "check" (Value.ptr 0)
        (run (FakeRunState.empty, fun _ => Value.nil)
          [Op.storeResult "build" (Value.int 1), Op.artifacts,
            Op.result "build" (Value.ptr 1), Op.storeResultArgsForCall 3,
            Op.invocations]).2).1 = false :=
  ⟨by decide, by decide,
    (result_never_stored [Op.storeResult "build" (Value.int 1), Op.artifacts,
        Op.result "build" (Value.ptr 1), Op.storeResultArgsForCall 3, Op.invocations]
      (fun _ => Value.nil) "check" (Value.ptr 0) (by decide) (by decide)).1⟩



/-- C3, as stated, fails: with a per-call value configured for call 1 only,
the first `Artifacts` call returns nil and the second one, with no
configuration method between the two, returns repository 7. -/
theorem artifacts_same_instance_counterexample :
    ((FakeRunState.empty.ArtifactsReturnsOnCall 1 (some 7)).Artifacts (fun _ => Value.nil)).1
      ≠ (((FakeRunState.empty.ArtifactsReturnsOnCall 1 (some 7)).Artifacts
          (fun _ => Value.nil)).2.1.Artifacts (fun _ => Value.nil)).1 := by
  decide

/-- C3, amended: on a fake with no `Artifacts` stub installed and no per-call
value configured for the index of either call, two `Artifacts` calls with
any calls other than `ArtifactsCalls`, `ArtifactsReturns` and
`ArtifactsReturnsOnCall` between them return the same repository, the one
set by `ArtifactsReturns` (nil if never set). -/
theorem artifacts_same_instance (w : World) (ops : List Op)
    (hstub : w.1.ArtifactsStub = none)
    (h1 : w.1.artifactsReturnsOnCall.index (w.1.artifactsArgsForCall.length : Int) = none)
    (h2 : w.1.artifactsReturnsOnCall.index
      ((w.1.artifactsArgsForCall.length + 1 + artifactsCallsOf ops : Nat) : Int) = none)
    (hops : ∀ op ∈ ops, op.isArtifactsConfig = false) :
    ((run (w.1.Artifacts w.2).2 ops).1.Artifacts (run (w.1.Artifacts w.2).2 ops).2).1
        = (w.1.Artifacts w.2).1 ∧
      (w.1.Artifacts w.2).1 = w.1.artifactsReturns := by
  have hfirst : (w.1.Artifacts w.2).1 = w.1.artifactsReturns := by
    rw [(FakeRunState.Artifacts_no_stub w.1 w.2 hstub).1, h1]
    rfl
  have hf := run_artifacts_config_frame (w.1.Artifacts w.2).2 ops hops
  have hlen := run_artifactsArgsForCall (w.1.Artifacts w.2).2 ops
  have hsnd : (w.1.Artifacts w.2).2.1.ArtifactsStub = w.1.ArtifactsStub ∧
      (w.1.Artifacts w.2).2.1.artifactsReturns = w.1.artifactsReturns ∧
      (w.1.Artifacts w.2).2.1.artifactsReturnsOnCall = w.1.artifactsReturnsOnCall ∧
      (w.1.Artifacts w.2).2.1.artifactsArgsForCall.length
        = w.1.artifactsArgsForCall.length + 1 := by
    rw [FakeRunState.Artifacts_fake]
    refine ⟨rfl, rfl, rfl, ?_⟩
    simp
  rw [hsnd.2.2.2] at hlen
  have hstub2 : (run (w.1.Artifacts w.2).2 ops).1.ArtifactsStub = none := by
    rw [hf.1, hsnd.1, hstub]
  refine ⟨?_, hfirst⟩
  rw [(FakeRunState.Artifacts_no_stub _ _ hstub2).1, hf.2.1, hf.2.2, hsnd.2.1, hsnd.2.2.1,
    hlen, h2, hfirst]
  rfl

/-- Witness for C3 amended: a fixed repository 3 configured, a per-call
value only for call 5, and `Result`/`StoreResult` calls between. -/
theorem artifacts_same_instance_witness :
    ((run (((FakeRunState.empty.ArtifactsReturnsOnCall 5 (some 9)).ArtifactsReturns
          (some 3)).Artifacts (fun _ => Value.nil)).2
        [Op.storeResult "a" (Value.int 1), Op.resultReturns true,
          Op.result "a" (Value.ptr 0)]).1.Artifacts
      (run (((FakeRunState.empty.ArtifactsReturnsOnCall 5 (some 9)).ArtifactsReturns
          (some 3)).Artifacts (fun _ => Value.nil)).2
        [Op.storeResult "a" (Value.int 1), Op.resultReturns true,
          Op.result "a" (Value.ptr 0)]).2).1
      = (((FakeRunState.empty.ArtifactsReturnsOnCall 5 (some 9)).ArtifactsReturns
          (some 3)).Artifacts (fun _ => Value.nil)).1 :=
  (artifacts_same_instance
    ((FakeRunState.empty.ArtifactsReturnsOnCall 5 (some 9)).ArtifactsReturns (some 3),
      fun _ => Value.nil)
    [Op.storeResult "a" (Value.int 1), Op.resultReturns true, Op.result "a" (Value.ptr 0)]
    rfl (by decide) (by decide) (by decide)).1

/-- C4: once `ResultCalls` has installed a stub, and after any further calls
none of which is `ResultCalls`, `ResultReturns` or `ResultReturnsOnCall`,
`Result s out` returns what the stub returns on `s` and `out` (and memory is
what the stub leaves), whatever return values the fake had configured before;
the call is appended to the `Result` call log and to the invocation log. -/
theorem result_forwards_to_stub (w : World) (stub : PlanID → Value → Mem → Bool × Mem)
    (ops : List Op) (s : PlanID) (out : Value)
    (hops : ∀ op ∈ ops, op.isResultConfig = false) :
    ((run (w.1.ResultCalls (some stub), w.2) ops).1.Result s out
        (run (w.1.ResultCalls (some stub), w.2) ops).2).1
      = (stub s out (run (w.1.ResultCalls (some stub), w.2) ops).2).1 ∧
    ((run (w.1.ResultCalls (some stub), w.2) ops).1.Result s out
        (run (w.1.ResultCalls (some stub), w.2) ops).2).2.2
      = (stub s out (run (w.1.ResultCalls (some stub), w.2) ops).2).2 ∧
    ((run (w.1.ResultCalls (some stub), w.2) ops).1.Result s out
        (run (w.1.ResultCalls (some stub), w.2) ops).2).2.1.resultArgsForCall
      = (run (w.1.ResultCalls (some stub), w.2) ops).1.resultArgsForCall ++ [(s, out)] ∧
    ((run (w.1.ResultCalls (some stub), w.2) ops).1.Result s out
        (run (w.1.ResultCalls (some stub), w.2) ops).2).2.1.invocations.index "Result"
      = some (((run (w.1.ResultCalls (some stub), w.2) ops).1.invocations.index "Result").getD []
          ++ [[Value.planID s, out]]) := by
  have hf := run_result_config_frame (w.1.ResultCalls (some stub), w.2) ops hops
  have hstub : (run (w.1.ResultCalls (some stub), w.2) ops).1.ResultStub = some stub :=
    hf.1.trans rfl
  have h := FakeRunState.Result_stub _ s out (run (w.1.ResultCalls (some stub), w.2) ops).2
    stub hstub
  refine ⟨h.1, h.2, ?_, ?_⟩
  · rw [FakeRunState.Result_fake]
    rfl
  · rw [FakeRunState.Result_fake, FakeRunState.recordInvocation_index, if_pos rfl]

/-- Witness for C4: fixed and per-call values configured first, then a stub
that always answers true, then other calls. -/
theorem result_forwards_to_stub_witness :
    ((run (((FakeRunState.empty.ResultReturns false).ResultReturnsOnCall 1 false).ResultCalls
          (some fun _ _ m => (true, m)), fun _ => Value.nil)
        [Op.result "a" (Value.ptr 0), Op.storeResult "a" (Value.int 1)]).1.Result
      "b" (Value.ptr 0)
      (run (((FakeRunState.empty.ResultReturns false).ResultReturnsOnCall 1 false).ResultCalls
          (some fun _ _ m => (true, m)), fun _ => Value.nil)
        [Op.result "a" (Value.ptr 0), Op.storeResult "a" (Value.int 1)]).2).1 = true :=
  (result_forwards_to_stub
    ((FakeRunState.empty.ResultReturns false).ResultReturnsOnCall 1 false, fun _ => Value.nil)
    (fun _ _ m => (true, m)) [Op.result "a" (Value.ptr 0), Op.storeResult "a" (Value.int 1)]
    "b" (Value.ptr 0) (by decide)).1

/-- C5: the per-method call logs are faithful.  After any sequence of calls on
the zero-value fake, `StoreResultCallCount` is the number of `StoreResult`
calls in the sequence and `StoreResultArgsForCall i` is the argument pair of
the `i`-th of them (repeated plan IDs included, nothing beyond the last); the
same for `Result`; `ArtifactsCallCount` is the number of `Artifacts` calls;
and a configuration method or accessor changes none of the three counts. -/
theorem call_log_faithful (ops : List Op) (mem : Mem) :
    ((run (FakeRunState.empty, mem) ops).1.StoreResultCallCount
        = (storeResultCallsOf ops).length ∧
      ∀ i : Nat, (run (FakeRunState.empty, mem) ops).1.StoreResultArgsForCall (i : Int)
        = (storeResultCallsOf ops)[i]?) ∧
    ((run (FakeRunState.empty, mem) ops).1.ResultCallCount = (resultCallsOf ops).length ∧
      ∀ i : Nat, (run (FakeRunState.empty, mem) ops).1.ResultArgsForCall (i : Int)
        = (resultCallsOf ops)[i]?) ∧
    (run (FakeRunState.empty, mem) ops).1.ArtifactsCallCount = artifactsCallsOf ops ∧
    (∀ (w : World) (op : Op), op.isCall = false →
      (step w op).1.StoreResultCallCount = w.1.StoreResultCallCount ∧
      (step w op).1.ResultCallCount = w.1.ResultCallCount ∧
      (step w op).1.ArtifactsCallCount = w.1.ArtifactsCallCount) := by
  have hS := run_empty_storeResultArgsForCall ops mem
  have hR := run_empty_resultArgsForCall ops mem
  have hA := run_empty_artifactsArgsForCall ops mem
  refine ⟨⟨?_, ?_⟩, ⟨?_, ?_⟩, ?_, ?_⟩
  · simp [FakeRunState.StoreResultCallCount, hS]
  · intro i
    simp [FakeRunState.StoreResultArgsForCall, hS, goIndex_natCast]
  · simp [FakeRunState.ResultCallCount, hR]
  · intro i
    simp [FakeRunState.ResultArgsForCall, hR, goIndex_natCast]
  · simpa [FakeRunState.ArtifactsCallCount] using hA
  · intro w op hop
    obtain ⟨h1, h2, h3⟩ := callsOf_of_not_isCall op hop
    refine ⟨?_, ?_, ?_⟩
    · simp [FakeRunState.StoreResultCallCount, step_storeResultArgsForCall, h1]
    · simp [FakeRunState.ResultCallCount, step_resultArgsForCall, h2]
    · simp [FakeRunState.ArtifactsCallCount, step_artifactsArgsForCall, h3]

/-- Witness for C5: two `StoreResult` calls with the same plan ID, a `Result`
call and a configuration call in between. -/
theorem call_log_faithful_witness :
    (run (FakeRunState.empty, fun _ => Value.nil)
        [.storeResult "a" (.int 1), .resultReturns true, .result "a" (.ptr 0),
          .storeResult "a" (.int 2)]).1.StoreResultArgsForCall 1 = some ("a", .int 2) ∧
      (step (FakeRunState.empty, fun _ => Value.nil) (.resultReturns true)).1.ResultCallCount
        = 0 := by
  have h := call_log_faithful
    [.storeResult "a" (.int 1), .resultReturns true, .result "a" (.ptr 0),
      .storeResult "a" (.int 2)] (fun _ => Value.nil)
  refine ⟨?_, ?_⟩
  · have h1 := h.1.2 1
    simpa [storeResultCallsOf] using h1
  · exact (h.2.2.2 (FakeRunState.empty, fun _ => Value.nil) (.resultReturns true) rfl).2.1

/-- C6: in every state reached from the zero-value fake by its public methods,
the map returned by `Invocations` holds under "Result" (and likewise under
"StoreResult") the argument lists `[arg1, arg2]` of the recorded calls, in
call order and equal index by index to `ResultArgsForCall`, and under
"Artifacts" as many empty argument lists as `ArtifactsCallCount`; a key is
absent exactly when its method was never called; and `Invocations` leaves the
state as it was. -/
theorem invocations_agree (ops : List Op) (mem : Mem) :
    (∀ i : Nat,
      ((lookup (run (FakeRunState.empty, mem) ops).1.Invocations "Result").getD [])[i]?
        = ((run (FakeRunState.empty, mem) ops).1.ResultArgsForCall (i : Int)).map encodeArgs) ∧
    (lookup (run (FakeRunState.empty, mem) ops).1.Invocations "Result" = none
      ↔ (run (FakeRunState.empty, mem) ops).1.ResultCallCount = 0) ∧
    (∀ i : Nat,
      ((lookup (run (FakeRunState.empty, mem) ops).1.Invocations "StoreResult").getD [])[i]?
        = ((run (FakeRunState.empty, mem) ops).1.StoreResultArgsForCall (i : Int)).map
            encodeArgs) ∧
    (lookup (run (FakeRunState.empty, mem) ops).1.Invocations "StoreResult" = none
      ↔ (run (FakeRunState.empty, mem) ops).1.StoreResultCallCount = 0) ∧
    (∀ i : Nat,
      ((lookup (run (FakeRunState.empty, mem) ops).1.Invocations "Artifacts").getD [])[i]?
        = if i < (run (FakeRunState.empty, mem) ops).1.ArtifactsCallCount then some []
          else none) ∧
    (lookup (run (FakeRunState.empty, mem) ops).1.Invocations "Artifacts" = none
      ↔ (run (FakeRunState.empty, mem) ops).1.ArtifactsCallCount = 0) ∧
    step (run (FakeRunState.empty, mem) ops) Op.invocations
      = run (FakeRunState.empty, mem) ops := by
  have hinv := LogInv_run (FakeRunState.empty, mem) ops LogInv_empty
  have hl := fun k => Invocations_lookup (run (FakeRunState.empty, mem) ops).1 k hinv.nodup
  refine ⟨?_, ?_, ?_, ?_, ?_, ?_, rfl⟩
  · intro i
    rw [hl, hinv.result, encodeLog_getD, FakeRunState.ResultArgsForCall, goIndex_natCast,
      List.getElem?_map]
  · rw [hl, hinv.result, encodeLog_eq_none_iff, List.length_map]
    rfl
  · intro i
    rw [hl, hinv.storeResult, encodeLog_getD, FakeRunState.StoreResultArgsForCall,
      goIndex_natCast, List.getElem?_map]
  · rw [hl, hinv.storeResult, encodeLog_eq_none_iff, List.length_map]
    rfl
  · intro i
    rw [hl, hinv.artifacts, encodeLog_getD, List.getElem?_map, FakeRunState.ArtifactsCallCount]
    by_cases hi : i < (run (FakeRunState.empty, mem) ops).1.artifactsArgsForCall.length
    · simp [hi]
    · simp [hi, List.getElem?_eq_none (Nat.le_of_not_lt hi)]
  · rw [hl, hinv.artifacts, encodeLog_eq_none_iff, List.length_map]
    rfl

/-- C8: with no stub installed, the next `Result` call after any sequence of
calls on the zero-value fake returns, whatever its arguments, the value the
specification's rule gives (`specResultReturn`): the value most recently
configured by `ResultReturnsOnCall` for the call's index if there is one,
else the one most recently configured by `ResultReturns`, else false.  The
same for `Artifacts` with `specArtifactsReturn` and default nil. -/
theorem return_value_rule (ops : List Op) (mem : Mem) :
    ((run (FakeRunState.empty, mem) ops).1.ResultStub = none →
      ∀ (s : PlanID) (out : Value),
        ((run (FakeRunState.empty, mem) ops).1.Result s out
          (run (FakeRunState.empty, mem) ops).2).1 = specResultReturn ops) ∧
    ((run (FakeRunState.empty, mem) ops).1.ArtifactsStub = none →
      ((run (FakeRunState.empty, mem) ops).1.Artifacts
        (run (FakeRunState.empty, mem) ops).2).1 = specArtifactsReturn ops) := by
  constructor
  · intro hstub s out
    rw [(FakeRunState.Result_no_stub _ s out _ hstub).1, run_empty_resultReturnsOnCall,
      run_empty_resultReturns, run_empty_resultArgsForCall]
    unfold specResultReturn
    cases (resultReturnsOnCallConfigured ops ((resultCallsOf ops).length : Int)).getLast? with
    | some v => rfl
    | none => cases (resultReturnsConfigured ops).getLast? <;> rfl
  · intro hstub
    rw [(FakeRunState.Artifacts_no_stub _ _ hstub).1, run_empty_artifactsReturnsOnCall,
      run_empty_artifactsReturns, run_empty_artifactsArgsForCall]
    unfold specArtifactsReturn
    cases (artifactsReturnsOnCallConfigured ops (artifactsCallsOf ops : Int)).getLast? with
    | some v => rfl
    | none => cases (artifactsReturnsConfigured ops).getLast? <;> rfl

/-- Witness for C8: call 1 of `Result` has a per-call value configured twice
and a fixed value configured; the stub installed first was removed. -/
theorem return_value_rule_witness :
    ((run (FakeRunState.empty, fun _ => Value.nil)
        [Op.resultCalls (some fun _ _ m => (true, m)), Op.resultReturns true,
          Op.resultReturnsOnCall 1 true, Op.resultReturnsOnCall 1 false,
          Op.result "a" (Value.ptr 0)]).1.Result "b" (Value.ptr 3)
      (run (FakeRunState.empty, fun _ => Value.nil)
        [Op.resultCalls (some fun _ _ m => (true, m)), Op.resultReturns true,
          Op.resultReturnsOnCall 1 true, Op.resultReturnsOnCall 1 false,
          Op.result "a" (Value.ptr 0)]).2).1 = false ∧
    ((run (FakeRunState.empty, fun _ => Value.nil)
        [Op.artifactsReturns (some 4), Op.artifacts]).1.Artifacts
      (run (FakeRunState.empty, fun _ => Value.nil)
        [Op.artifactsReturns (some 4), Op.artifacts]).2).1 = some 4 :=
  ⟨((return_value_rule
      [Op.resultCalls (some fun _ _ m => (true, m)), Op.resultReturns true,
        Op.resultReturnsOnCall 1 true, Op.resultReturnsOnCall 1 false,
        Op.result "a" (Value.ptr 0)] (fun _ => Value.nil)).1 rfl "b" (Value.ptr 3)).trans
      (by decide),
    ((return_value_rule [Op.artifactsReturns (some 4), Op.artifacts]
      (fun _ => Value.nil)).2 rfl).trans (by decide)⟩

/-- C9: configuring a return value removes an installed stub.  After
`ResultCalls f`, `ResultReturns b` or `ResultReturnsOnCall i b` leaves the fake
exactly as if `f` had never been installed: no stub, and the next `Result`
returns from the configured values alone and does not touch memory, as do
later ones as long as `ResultCalls` is not called.  `ResultCalls` itself keeps
the fixed and per-call values, which is why they are in force again afterwards.
The same for `ArtifactsCalls`, `ArtifactsReturns`, `ArtifactsReturnsOnCall`. -/
theorem returns_remove_stub (fake : FakeRunState)
    (f : Option (PlanID → Value → Mem → Bool × Mem)) (g : Option (Mem → RepoPtr × Mem))
    (b : Bool) (r : RepoPtr) (i : Int) (s : PlanID) (out : Value) (mem : Mem) :
    ((fake.ResultCalls f).ResultReturns b = fake.ResultReturns b ∧
      (fake.ResultCalls f).ResultReturnsOnCall i b = fake.ResultReturnsOnCall i b ∧
      ((fake.ResultCalls f).ResultReturns b).ResultStub = none ∧
      ((fake.ResultCalls f).ResultReturnsOnCall i b).ResultStub = none ∧
      (((fake.ResultCalls f).ResultReturns b).Result s out mem).1
        = (fake.resultReturnsOnCall.index (fake.resultArgsForCall.length : Int)).getD b ∧
      (((fake.ResultCalls f).ResultReturns b).Result s out mem).2.2 = mem ∧
      (((fake.ResultCalls f).ResultReturnsOnCall i b).Result s out mem).1
        = (if i = (fake.resultArgsForCall.length : Int) then b
            else (fake.resultReturnsOnCall.index (fake.resultArgsForCall.length : Int)).getD
              fake.resultReturns) ∧
      (((fake.ResultCalls f).ResultReturnsOnCall i b).Result s out mem).2.2 = mem ∧
      (∀ ops : List Op, (∀ op ∈ ops, op.isResultConfig = false) →
        (run ((fake.ResultCalls f).ResultReturns b, mem) ops).1.ResultStub = none ∧
        (run ((fake.ResultCalls f).ResultReturnsOnCall i b, mem) ops).1.ResultStub = none) ∧
      (fake.ResultCalls f).resultReturns = fake.resultReturns ∧
      (fake.ResultCalls f).resultReturnsOnCall = fake.resultReturnsOnCall) ∧
    ((fake.ArtifactsCalls g).ArtifactsReturns r = fake.ArtifactsReturns r ∧
      (fake.ArtifactsCalls g).ArtifactsReturnsOnCall i r = fake.ArtifactsReturnsOnCall i r ∧
      ((fake.ArtifactsCalls g).ArtifactsReturns r).ArtifactsStub = none ∧
      ((fake.ArtifactsCalls g).ArtifactsReturnsOnCall i r).ArtifactsStub = none ∧
      (((fake.ArtifactsCalls g).ArtifactsReturns r).Artifacts mem).1
        = (fake.artifactsReturnsOnCall.index (fake.artifactsArgsForCall.length : Int)).getD r ∧
      (((fake.ArtifactsCalls g).ArtifactsReturns r).Artifacts mem).2.2 = mem ∧
      (((fake.ArtifactsCalls g).ArtifactsReturnsOnCall i r).Artifacts mem).1
        = (if i = (fake.artifactsArgsForCall.length : Int) then r
            else (fake.artifactsReturnsOnCall.index
              (fake.artifactsArgsForCall.length : Int)).getD fake.artifactsReturns) ∧
      (((fake.ArtifactsCalls g).ArtifactsReturnsOnCall i r).Artifacts mem).2.2 = mem ∧
      (∀ ops : List Op, (∀ op ∈ ops, op.isArtifactsConfig = false) →
        (run ((fake.ArtifactsCalls g).ArtifactsReturns r, mem) ops).1.ArtifactsStub = none ∧
        (run ((fake.ArtifactsCalls g).ArtifactsReturnsOnCall i r, mem) ops).1.ArtifactsStub
          = none) ∧
      (fake.ArtifactsCalls g).artifactsReturns = fake.artifactsReturns ∧
      (fake.ArtifactsCalls g).artifactsReturnsOnCall = fake.artifactsReturnsOnCall) := by
  constructor
  · have h1 := FakeRunState.Result_no_stub ((fake.ResultCalls f).ResultReturns b) s out mem rfl
    have h2 := FakeRunState.Result_no_stub ((fake.ResultCalls f).ResultReturnsOnCall i b)
      s out mem rfl
    refine ⟨rfl, rfl, rfl, rfl, h1.1, h1.2, ?_, h2.2, ?_, rfl, rfl⟩
    · rw [h2.1]
      have h3 := GoMap.index_assign fake.resultReturnsOnCall i
        (fake.resultArgsForCall.length : Int) b
      by_cases hi : i = (fake.resultArgsForCall.length : Int)
      · rw [if_pos hi] at h3 ⊢
        simp only [FakeRunState.ResultReturnsOnCall, FakeRunState.ResultCalls, h3]
        rfl
      · rw [if_neg hi] at h3 ⊢
        simp only [FakeRunState.ResultReturnsOnCall, FakeRunState.ResultCalls, h3]
    · intro ops hops
      exact ⟨(run_result_config_frame _ ops hops).1.trans rfl,
        (run_result_config_frame _ ops hops).1.trans rfl⟩
  · have h1 := FakeRunState.Artifacts_no_stub ((fake.ArtifactsCalls g).ArtifactsReturns r)
      mem rfl
    have h2 := FakeRunState.Artifacts_no_stub
      ((fake.ArtifactsCalls g).ArtifactsReturnsOnCall i r) mem rfl
    refine ⟨rfl, rfl, rfl, rfl, h1.1, h1.2, ?_, h2.2, ?_, rfl, rfl⟩
    · rw [h2.1]
      have h3 := GoMap.index_assign fake.artifactsReturnsOnCall i
        (fake.artifactsArgsForCall.length : Int) r
      by_cases hi : i = (fake.artifactsArgsForCall.length : Int)
      · rw [if_pos hi] at h3 ⊢
        simp only [FakeRunState.ArtifactsReturnsOnCall, FakeRunState.ArtifactsCalls, h3]
        rfl
      · rw [if_neg hi] at h3 ⊢
        simp only [FakeRunState.ArtifactsReturnsOnCall, FakeRunState.ArtifactsCalls, h3]
    · intro ops hops
      exact ⟨(run_artifacts_config_frame _ ops hops).1.trans rfl,
        (run_artifacts_config_frame _ ops hops).1.trans rfl⟩

/-- Witness for C9: a stub that answers true is installed over a configured
per-call value, then `ResultReturns false` removes it; two calls later the
stub is still gone. -/
theorem returns_remove_stub_witness :
    (run (((FakeRunState.empty.ResultReturnsOnCall 0 true).ResultCalls
        (some fun _ _ m => (true, m))).ResultReturns false, fun _ => Value.nil)
      [Op.result "a" (Value.ptr 0), Op.storeResult "a" (Value.int 1)]).1.ResultStub = none ∧
    ((((FakeRunState.empty.ResultReturnsOnCall 0 true).ResultCalls
        (some fun _ _ m => (true, m))).ResultReturns false).Result "a" (Value.ptr 0)
      (fun _ => Value.nil)).1 = true :=
  ⟨((returns_remove_stub (FakeRunState.empty.ResultReturnsOnCall 0 true)
      (some fun _ _ m => (true, m)) none false none 0 "a" (Value.ptr 0)
      (fun _ => Value.nil)).1.2.2.2.2.2.2.2.2.1
        [Op.result "a" (Value.ptr 0), Op.storeResult "a" (Value.int 1)] (by decide)).1,
    ((returns_remove_stub (FakeRunState.empty.ResultReturnsOnCall 0 true)
      (some fun _ _ m => (true, m)) none false none 0 "a" (Value.ptr 0)
      (fun _ => Value.nil)).1.2.2.2.2.1).trans (by decide)⟩

/-- C10: `ResultArgsForCall i` and `StoreResultArgsForCall i` fail with index
out of range exactly when `i < 0` or `i` is at least the call count of their
method; on the zero-value fake, and after any calls none of which is of that
method, they fail for every `i`; and the call, failing or not, leaves the
fake and memory as they were. -/
theorem argsForCall_fails_iff (w : World) (i : Int) :
    (w.1.ResultArgsForCall i = none ↔ i < 0 ∨ (w.1.ResultCallCount : Int) ≤ i) ∧
    (w.1.StoreResultArgsForCall i = none ↔ i < 0 ∨ (w.1.StoreResultCallCount : Int) ≤ i) ∧
    (∀ (ops : List Op) (mem : Mem), resultCallsOf ops = [] →
      (run (FakeRunState.empty, mem) ops).1.ResultArgsForCall i = none) ∧
    (∀ (ops : List Op) (mem : Mem), storeResultCallsOf ops = [] →
      (run (FakeRunState.empty, mem) ops).1.StoreResultArgsForCall i = none) ∧
    step w (.resultArgsForCall i) = w ∧ step w (.storeResultArgsForCall i) = w := by
  refine ⟨goIndex_eq_none_iff _ _, goIndex_eq_none_iff _ _, ?_, ?_, rfl, rfl⟩
  · intro ops mem h
    have hR := run_empty_resultArgsForCall ops mem
    rw [h] at hR
    simp [FakeRunState.ResultArgsForCall, hR, goIndex]
  · intro ops mem h
    have hS := run_empty_storeResultArgsForCall ops mem
    rw [h] at hS
    simp [FakeRunState.StoreResultArgsForCall, hS, goIndex]

/-- Witness for C10: after `StoreResult` calls only, `ResultArgsForCall 0`
fails, as it does at index 5 and at index -1. -/
theorem argsForCall_fails_iff_witness :
    (run (FakeRunState.empty, fun _ => Value.nil)
        [.storeResult "a" (.int 1), .storeResult "b" (.int 2)]).1.ResultArgsForCall 0 = none ∧
      FakeRunState.empty.StoreResultArgsForCall (-1) = none :=
  ⟨(argsForCall_fails_iff (FakeRunState.empty, fun _ => Value.nil) 0).2.2.1
      [.storeResult "a" (.int 1), .storeResult "b" (.int 2)] (fun _ => Value.nil) rfl,
    (argsForCall_fails_iff (FakeRunState.empty, fun _ => Value.nil) (-1)).2.1.mpr
      (Or.inl (by decide))⟩

end ExecFakes
